import Mathlib

/-!
Verification of the opensearch-index-manager backup/cleanup pipeline.

The Go source is shallowly embedded: pure computations (window planning,
filename construction, query-body construction) become Lean functions;
effectful collaborators (the search index, the object store, the file
system) become explicit oracle parameters returning `Except`/`Option`
values, and each run is a pure function of those oracles.  Instants
within the target day are measured in milliseconds from 00:00:00.000.
-/

namespace OSIM

/-! Window planner (internal/backup/backup.go, `Backup` + `downloadPeriod`)

`Backup` computes `periodsCount := 24 / job.IntervalHours` (Go integer
division) and, for window index `i` (0-based), `startHour := i*interval`,
`endHour := startHour + interval`.  `downloadPeriod` turns the hour pair
into instants: start is `startHour:00:00.000`; the end is forced to
`23:59:59.999` when `endHour >= 24` and is otherwise
`endHour:00:00.000` minus one millisecond. -/

def msPerHour : Nat := 3600000

/-- The instant 23:59:59.999 of the target day, in milliseconds from midnight. -/
def endOfDayMs : Nat := 86399999

/-- Number of windows, `24 / job.IntervalHours` — Go integer (floor) division. -/
def periodsCount (intervalHours : Nat) : Nat := 24 / intervalHours

/-- The time window for 0-based window index `i`: start and end instants in
milliseconds from midnight of the target day, as computed by
`downloadPeriod` from `startHour = i*interval`, `endHour = startHour+interval`. -/
def windowFor (intervalHours i : Nat) : Nat × Nat :=
  let startHour := i * intervalHours
  let endHour := startHour + intervalHours
  (startHour * msPerHour,
   if 24 ≤ endHour then endOfDayMs else endHour * msPerHour - 1)

/-- The ordered sequence of windows a backup run iterates over. -/
def planWindows (intervalHours : Nat) : List (Nat × Nat) :=
  (List.range (periodsCount intervalHours)).map (windowFor intervalHours)

/-- Every consecutive pair of windows is adjacent: the earlier window ends
exactly one millisecond before the later one starts. -/
def contiguousMs : List (Nat × Nat) → Bool
  | [] => true
  | [_] => true
  | a :: b :: rest => (a.2 + 1 == b.1) && contiguousMs (b :: rest)

/-- The window list is nonempty, starts at 00:00:00.000, ends at
23:59:59.999, is contiguous at millisecond granularity, and every window
is well-formed (start ≤ end) — so the union of the windows is exactly
[00:00:00.000, 23:59:59.999] of the target day. -/
def coversDay (ws : List (Nat × Nat)) : Bool :=
  match ws.head?, ws.getLast? with
  | some a, some b =>
      a.1 == 0 && b.2 == endOfDayMs && contiguousMs ws
        && ws.all (fun w => w.1 ≤ w.2)
  | _, _ => false

/-! Dates and artifact names

`Backup` derives the target day as `time.Now().AddDate(0, 0, -1)` — the
calendar day before the current date — and names every temporary file
from `date.Format("01-02-06")` (zero-padded month-day-year), the index
name, and for window artifacts the 1-based window number. -/

structure Date where
  year : Nat
  month : Nat
  day : Nat
deriving DecidableEq

def isLeapYear (y : Nat) : Bool :=
  (y % 4 == 0 && y % 100 != 0) || y % 400 == 0

def daysInMonth (y m : Nat) : Nat :=
  if m = 2 then (if isLeapYear y then 29 else 28)
  else if m = 4 ∨ m = 6 ∨ m = 9 ∨ m = 11 then 30
  else 31

/-- The calendar day immediately before `d`, as `time.Now().AddDate(0, 0, -1)`
derives it. -/
def prevDay (d : Date) : Date :=
  if 1 < d.day then ⟨d.year, d.month, d.day - 1⟩
  else if 1 < d.month then ⟨d.year, d.month - 1, daysInMonth d.year (d.month - 1)⟩
  else ⟨d.year - 1, 12, 31⟩

/-- Zero-padded two-digit rendering, as Go layout components `01`, `02`,
`06` produce. -/
def pad2 (n : Nat) : String :=
  if n < 10 then "0" ++ toString n else toString n

/-- Go `date.Format("01-02-06")`: MM-DD-YY with two-digit year. -/
def goFormatMMDDYY (d : Date) : String :=
  pad2 d.month ++ "-" ++ pad2 d.day ++ "-" ++ pad2 (d.year % 100)

/-- The working directory hard-coded in `NewService`. -/
def workDir : String := "/tmp/opensearch-backups"

/-- Identity of a temporary file created by a backup run. -/
inductive ArtifactFile
  | window (d : Date) (indexName : String) (fileNum : Nat)
  | merged (d : Date) (indexName : String)
  | compressed (d : Date) (indexName : String)
deriving DecidableEq

/-- The on-disk path of each artifact, following the `fmt.Sprintf`
patterns in `downloadPeriod`, `mergeFiles` and `compressFile`. -/
def filePath : ArtifactFile → String
  | .window d idx n =>
      workDir ++ "/" ++ goFormatMMDDYY d ++ "-" ++ idx ++ "-" ++ toString n ++ ".json"
  | .merged d idx =>
      workDir ++ "/" ++ goFormatMMDDYY d ++ "-" ++ idx ++ ".json"
  | .compressed d idx =>
      workDir ++ "/" ++ goFormatMMDDYY d ++ "-" ++ idx ++ ".json" ++ ".gz"

/-- Window artifact path as the specification words it: work directory,
target date formatted MM-DD-YY, the index name, and the 1-based window
sequence number, with a `.json` extension. -/
def specWindowPath (targetDate : Date) (indexName : String) (seq : Nat) : String :=
  workDir ++ "/" ++ pad2 targetDate.month ++ "-" ++ pad2 targetDate.day ++ "-"
    ++ pad2 (targetDate.year % 100) ++ "-" ++ indexName ++ "-" ++ toString seq ++ ".json"

/-! The backup run (internal/backup/backup.go, `Backup`)

Collaborator effects are oracles: each window's count probe and search
call, and the merge / compress / upload steps, may fail with an error
code (`Except Nat`). -/

/-- Outcomes of the two index calls `downloadPeriod` makes for one
window: the count probe and the search request. -/
structure WindowEnv where
  countRes : Except Nat Nat
  searchRes : Except Nat Unit

/-- The window artifact for 0-based window index `i`; `downloadPeriod`
is called with `fileNum = i + 1`. -/
def windowFile (targetDate : Date) (indexName : String) (i : Nat) : ArtifactFile :=
  .window targetDate indexName (i + 1)

/-- Model of `downloadPeriod`: probe the document count; a count of zero returns
no filename and no error; otherwise run the search and return the window
artifact's name.  A failing probe or search is returned as an error. -/
def downloadPeriod (env : WindowEnv) (file : ArtifactFile) :
    Except Nat (Option ArtifactFile) :=
  match env.countRes with
  | .error e => .error e
  | .ok count =>
      if count = 0 then .ok none
      else
        match env.searchRes with
        | .error e => .error e
        | .ok _ => .ok (some file)

inductive RunError
  | mergeFailed (e : Nat)
  | compressFailed (e : Nat)
  | uploadFailed (e : Nat)
deriving DecidableEq

/-- Collaborator outcomes for one whole backup run. -/
structure RunEnv where
  win : Nat → WindowEnv
  mergeRes : Except Nat Nat
  compressRes : Except Nat Unit
  uploadRes : Except Nat Unit

structure BackupJob where
  indexName : String
  intervalHours : Nat
  s3Path : String
  requestInterval : Nat

/-- Observable outcome of one backup run: which files were produced,
which pipeline stages ran, which files were deleted at the end, and the
run's result (`none` = success). -/
structure RunOutcome where
  targetDate : Date
  allFiles : List ArtifactFile
  mergeAttempted : Bool
  merged : Option ArtifactFile
  compressAttempted : Bool
  compressed : Option ArtifactFile
  uploadAttempted : Bool
  uploaded : Option ArtifactFile
  deleted : List ArtifactFile
  result : Option RunError
deriving DecidableEq

/-- The download loop of `Backup`: windows are processed in order; a
window whose download fails is logged and skipped (it contributes
nothing, the loop continues); a window with no documents contributes
nothing. -/
def downloadAll (env : RunEnv) (targetDate : Date) (indexName : String) (n : Nat) :
    List ArtifactFile :=
  (List.range n).filterMap (fun i =>
    match downloadPeriod (env.win i) (windowFile targetDate indexName i) with
    | .error _ => none
    | .ok o => o)

/-- Model of `Backup`: derive the target date (yesterday), run the download loop,
and if no files were produced end as a successful no-op; otherwise
merge, compress and upload; each stage's failure aborts the run.  Only
after a successful upload does `cleanup` run, deleting the window
artifacts and the merged file (and nothing else). -/
def Backup (env : RunEnv) (today : Date) (job : BackupJob) : RunOutcome :=
  let targetDate := prevDay today
  let allFiles := downloadAll env targetDate job.indexName (periodsCount job.intervalHours)
  if allFiles.isEmpty then
    ⟨targetDate, allFiles, false, none, false, none, false, none, [], none⟩
  else
    let mergedFile : ArtifactFile := .merged targetDate job.indexName
    match env.mergeRes with
    | .error e =>
        ⟨targetDate, allFiles, true, none, false, none, false, none, [],
          some (.mergeFailed e)⟩
    | .ok _ =>
        match env.compressRes with
        | .error e =>
            ⟨targetDate, allFiles, true, some mergedFile, true, none, false, none, [],
              some (.compressFailed e)⟩
        | .ok _ =>
            let compressedFile : ArtifactFile := .compressed targetDate job.indexName
            match env.uploadRes with
            | .error e =>
                ⟨targetDate, allFiles, true, some mergedFile, true, some compressedFile,
                  true, none, [], some (.uploadFailed e)⟩
            | .ok _ =>
                ⟨targetDate, allFiles, true, some mergedFile, true, some compressedFile,
                  true, some compressedFile, allFiles ++ [mergedFile], none⟩

/-! Concrete run environments used by witnesses and counterexamples -/

def dayX : Date := ⟨2026, 10, 11⟩

/-- Every window has documents and downloads fine, but the merge step
fails with error code 7. -/
def envMergeFail : RunEnv := ⟨fun _ => ⟨.ok 3, .ok ()⟩, .error 7, .ok (), .ok ()⟩

def jobDaily : BackupJob := ⟨"logs", 24, "logs/", 0⟩

/-- Window 0's count probe fails with error 5; window 1 has 2 documents;
merge, compress and upload succeed. -/
def envOneBadWindow : RunEnv :=
  ⟨fun i => if i = 0 then ⟨.error 5, .ok ()⟩ else ⟨.ok 2, .ok ()⟩, .ok 2, .ok (), .ok ()⟩

def jobHalfDay : BackupJob := ⟨"logs", 12, "logs/", 0⟩

/-- Every window probes a count of zero; downstream stages would succeed
if reached. -/
def envAllEmpty : RunEnv := ⟨fun _ => ⟨.ok 0, .ok ()⟩, .ok 0, .ok (), .ok ()⟩

/-! The artifact merger (internal/backup/backup.go, `mergeFiles`)

`mergeFiles` walks the surviving window-artifact files in input order;
for each it decodes the file's own bytes as a search response to count
the documents (`len(searchResponse.Hits.Hits)`), rewinds, and copies the
raw bytes verbatim onto the end of the merged file.  A decode (or open)
failure aborts the merge with an error.  File contents are byte lists;
the JSON decoder is an oracle returning the per-file document count. -/

def mergeLoop (decode : List Nat → Except Nat Nat) :
    List (List Nat) → List Nat → Nat → Except Nat (List Nat × Nat)
  | [], merged, total => .ok (merged, total)
  | f :: rest, merged, total =>
      match decode f with
      | .error e => .error e
      | .ok c => mergeLoop decode rest (merged ++ f) (total + c)

def mergeFiles (decode : List Nat → Except Nat Nat) (files : List (List Nat)) :
    Except Nat (List Nat × Nat) :=
  mergeLoop decode files [] 0

/-! The durable uploader (internal/storage, `Upload`)

`Upload` makes up to `maxRetries` attempts; a successful put returns at
once; after a failed attempt that is not the last it sleeps
`baseDelay * attempt`; when every attempt fails it returns an error
carrying the attempt count and the last underlying error.  The put
operation is an oracle: `put attempt = none` means the attempt
succeeds, `some e` that it fails with error `e`. -/

def maxRetries : Nat := 3

/-- Everything observable about one `Upload` call: how many attempts
were made, the sleeps between them (in order), and the result — `.ok`
or an error pairing the reported attempt count with the last failure. -/
structure UploadTrace where
  attempts : Nat
  waits : List Nat
  result : Except (Nat × Nat) Unit

/-- The attempt numbers the Go `for` loop iterates over:
`1, ..., maxRetries`. -/
def attemptNumbers : List Nat := List.range' 1 maxRetries

def uploadGo (put : Nat → Option Nat) (baseDelay : Nat) :
    List Nat → List Nat → Option Nat → UploadTrace
  | [], waits, lastErr => ⟨maxRetries, waits.reverse, .error (maxRetries, lastErr.getD 0)⟩
  | attempt :: rest, waits, lastErr =>
      match put attempt with
      | none => ⟨attempt, waits.reverse, .ok ()⟩
      | some e =>
          if attempt < maxRetries then
            uploadGo put baseDelay rest (baseDelay * attempt :: waits) (some e)
          else
            ⟨attempt, waits.reverse, .error (maxRetries, e)⟩

def Upload (put : Nat → Option Nat) (baseDelay : Nat) : UploadTrace :=
  uploadGo put baseDelay attemptNumbers [] none

/-! The cleanup executor (internal/cleanup/cleanup.go, `Cleanup`)

`Cleanup` formats one delete-by-query body — a range query on
`@timestamp` with inclusive upper bound `now-%dd/d`, the retention in
days — executes it once against the job's index, surfaces a failure as
the run's error and otherwise reports the deleted-count. -/

structure CleanupJob where
  indexName : String
  retentionDays : Nat

/-- The timestamp-range predicate of the delete query: field name and
the inclusive upper bound (`lte`) as a date-math expression. -/
structure RangePredicate where
  field : String
  lte : String
deriving DecidableEq

/-- The date-math expression `Cleanup` formats into the query body:
`now-Nd/d` — now minus N days, at day granularity. -/
def cleanupExpr (retentionDays : Nat) : String :=
  "now-" ++ toString retentionDays ++ "d/d"

def cleanupPredicate (retentionDays : Nat) : RangePredicate :=
  ⟨"@timestamp", cleanupExpr retentionDays⟩

structure DeleteByQueryReq where
  indices : List String
  predicate : RangePredicate
deriving DecidableEq

/-- Requests issued and final result of one cleanup run. -/
structure CleanupOutcome where
  requests : List DeleteByQueryReq
  result : Except Nat Nat

/-- Model of `Cleanup`: build the single delete-by-query request and execute it
once — no pagination, no retry. -/
def Cleanup (job : CleanupJob) (execute : DeleteByQueryReq → Except Nat Nat) :
    CleanupOutcome :=
  match execute ⟨[job.indexName], cleanupPredicate job.retentionDays⟩ with
  | .error e => ⟨[⟨[job.indexName], cleanupPredicate job.retentionDays⟩], .error e⟩
  | .ok deleted => ⟨[⟨[job.indexName], cleanupPredicate job.retentionDays⟩], .ok deleted⟩

/-! The job scheduler (the `main` registration loops)

For each configured job, the registration loop stores a freshly
allocated mutex in a map keyed by the job's index name and registers a
cron handler that captures that fresh mutex.  A handler fires by
`TryLock` on its captured mutex: on failure it logs and returns (the
firing is skipped), on success it runs the job and the deferred unlock
releases the mutex when the run completes.  Since every iteration
allocates a fresh mutex, the handler registered at position `i` owns
lock `i`; a later job with the same index name overwrites the map entry
but not the earlier handler's captured lock. -/

structure SchedJob where
  indexName : String
  schedule : String
deriving DecidableEq

/-- Scheduler state: per registered handler, whether its captured lock
is held, plus the log of run starts (handler positions, oldest first) —
the observable side effects of firings. -/
structure SchedState where
  held : List Bool
  startLog : List Nat
deriving DecidableEq

def initState (js : List SchedJob) : SchedState :=
  ⟨js.map (fun _ => false), []⟩

/-- One firing of the handler registered at position `i`: try-lock its
captured mutex; when the lock is already held the firing is skipped —
the state is unchanged and no run starts; otherwise the lock is taken
and the run start is recorded.  The boolean reports whether the
handler's body ran. -/
def fireJob (s : SchedState) (i : Nat) : SchedState × Bool :=
  if h : i < s.held.length then
    if s.held[i] then (s, false)
    else (⟨s.held.set i true, s.startLog ++ [i]⟩, true)
  else (s, false)

/-- Handler `i`'s run completes: the deferred unlock releases its
lock. -/
def finishJob (s : SchedState) (i : Nat) : SchedState :=
  ⟨s.held.set i false, s.startLog⟩

/-- Number of in-flight executions of jobs whose index name — the
spec's job identity — is `name`. -/
def runningOf (js : List SchedJob) (s : SchedState) (name : String) : Nat :=
  ((List.range js.length).filter (fun i =>
    ((js[i]?.map SchedJob.indexName).getD "" == name) && (s.held[i]?.getD false))).length

/-! Theorems: the claims and their supporting lemmas. -/

/-- Claim C1, counterexample.  With interval = 5 the planner produces
floor(24/5) = 4 windows, not ceil(24/5) = 5, and the last window ends at
19:59:59.999 (= 71999999 ms), not 23:59:59.999; the day is not covered. -/
theorem planner_ceil_counterexample :
    (planWindows 5).length = 4 ∧
    ¬ (planWindows 5).length = (24 + 5 - 1) / 5 ∧
    (planWindows 5).getLast? = some (54000000, 71999999) ∧
    ¬ (planWindows 5).getLast?.map Prod.snd = some endOfDayMs ∧
    coversDay (planWindows 5) = false := by
  decide

/-- Claim C1, amended.  For every positive interval ≤ 24 the planner
produces floor(24/interval) windows (Go integer division), the final
window's end is 23:59:59.999 exactly when the interval divides 24, and
otherwise the final window ends at hour floor(24/I)*I minus one
millisecond, leaving the rest of the day uncovered. -/
theorem planner_floor_windows (I : Nat) (h1 : 1 ≤ I) (h2 : I ≤ 24) :
    (planWindows I).length = 24 / I ∧
    (planWindows I).getLast?.map Prod.snd =
      some (if 24 % I = 0 then endOfDayMs else 24 / I * I * msPerHour - 1) ∧
    (24 % I = 0 ↔ coversDay (planWindows I) = true) := by
  interval_cases I <;> decide

/-- Witness for `planner_floor_windows` at interval 5. -/
theorem planner_floor_windows_witness :
    1 ≤ 5 ∧ 5 ≤ 24 ∧
      ((planWindows 5).length = 24 / 5 ∧
       (planWindows 5).getLast?.map Prod.snd =
         some (if 24 % 5 = 0 then endOfDayMs else 24 / 5 * 5 * msPerHour - 1) ∧
       (24 % 5 = 0 ↔ coversDay (planWindows 5) = true)) :=
  ⟨by decide, by decide, planner_floor_windows 5 (by decide) (by decide)⟩

/-- Claim C2.  For every interval size that evenly divides 24, the planner
produces exactly 24/interval windows that start at 00:00:00.000, end at
23:59:59.999, are contiguous (each non-final window ends one millisecond
before the next window's start) and well-formed, so their union is exactly
[00:00:00.000, 23:59:59.999] of the target day. -/
theorem planner_divisor_coverage (I : Nat)
    (h : I ∈ [1, 2, 3, 4, 6, 8, 12, 24]) :
    (planWindows I).length = 24 / I ∧ coversDay (planWindows I) = true := by
  revert I h
  decide

/-- Witness for `planner_divisor_coverage` at interval 2. -/
theorem planner_divisor_coverage_witness :
    2 ∈ [1, 2, 3, 4, 6, 8, 12, 24] ∧
      ((planWindows 2).length = 24 / 2 ∧ coversDay (planWindows 2) = true) :=
  ⟨by decide, planner_divisor_coverage 2 (by decide)⟩

/-! Helper lemmas about the backup run -/

theorem downloadPeriod_ok_some {w : WindowEnv} {file g : ArtifactFile}
    (h : downloadPeriod w file = .ok (some g)) : g = file := by
  unfold downloadPeriod at h
  split at h
  · simp at h
  · split at h
    · simp at h
    · split at h
      · simp at h
      · simp at h
        exact h.symm

theorem mem_downloadAll {env : RunEnv} {d : Date} {idx : String} {n : Nat}
    {f : ArtifactFile} :
    f ∈ downloadAll env d idx n ↔
      ∃ i, i < n ∧
        downloadPeriod (env.win i) (windowFile d idx i) = .ok (some f) := by
  unfold downloadAll
  rw [List.mem_filterMap]
  constructor
  · rintro ⟨i, hi, hg⟩
    refine ⟨i, List.mem_range.mp hi, ?_⟩
    revert hg
    cases downloadPeriod (env.win i) (windowFile d idx i) with
    | error e => intro hg; exact Option.noConfusion hg
    | ok o => intro hg; exact congrArg Except.ok hg
  · rintro ⟨i, hi, hg⟩
    refine ⟨i, List.mem_range.mpr hi, ?_⟩
    rw [hg]

theorem windowFile_inj {d : Date} {idx : String} {i j : Nat}
    (h : windowFile d idx i = windowFile d idx j) : i = j := by
  unfold windowFile at h
  injection h with h1 h2 h3
  omega

/-- Exhaustive description of the five ways a backup run can end. -/
theorem Backup_cases (env : RunEnv) (today : Date) (job : BackupJob) :
    (downloadAll env (prevDay today) job.indexName (periodsCount job.intervalHours) = [] ∧
      Backup env today job =
        ⟨prevDay today, [], false, none, false, none, false, none, [], none⟩) ∨
    (downloadAll env (prevDay today) job.indexName (periodsCount job.intervalHours) ≠ [] ∧
      ((∃ e, env.mergeRes = .error e ∧
        Backup env today job =
          ⟨prevDay today,
           downloadAll env (prevDay today) job.indexName (periodsCount job.intervalHours),
           true, none, false, none, false, none, [], some (.mergeFailed e)⟩) ∨
      (∃ c e, env.mergeRes = .ok c ∧ env.compressRes = .error e ∧
        Backup env today job =
          ⟨prevDay today,
           downloadAll env (prevDay today) job.indexName (periodsCount job.intervalHours),
           true, some (.merged (prevDay today) job.indexName), true, none, false, none, [],
           some (.compressFailed e)⟩) ∨
      (∃ c e, env.mergeRes = .ok c ∧ env.compressRes = .ok () ∧ env.uploadRes = .error e ∧
        Backup env today job =
          ⟨prevDay today,
           downloadAll env (prevDay today) job.indexName (periodsCount job.intervalHours),
           true, some (.merged (prevDay today) job.indexName),
           true, some (.compressed (prevDay today) job.indexName), true, none, [],
           some (.uploadFailed e)⟩) ∨
      (∃ c, env.mergeRes = .ok c ∧ env.compressRes = .ok () ∧ env.uploadRes = .ok () ∧
        Backup env today job =
          ⟨prevDay today,
           downloadAll env (prevDay today) job.indexName (periodsCount job.intervalHours),
           true, some (.merged (prevDay today) job.indexName),
           true, some (.compressed (prevDay today) job.indexName),
           true, some (.compressed (prevDay today) job.indexName),
           downloadAll env (prevDay today) job.indexName (periodsCount job.intervalHours)
             ++ [.merged (prevDay today) job.indexName], none⟩))) := by
  by_cases hfs :
      downloadAll env (prevDay today) job.indexName (periodsCount job.intervalHours) = []
  · left
    refine ⟨hfs, ?_⟩
    simp [Backup, hfs]
  · right
    refine ⟨hfs, ?_⟩
    cases hm : env.mergeRes with
    | error e =>
        left
        exact ⟨e, rfl, by simp [Backup, hfs, hm]⟩
    | ok c =>
        right
        cases hc : env.compressRes with
        | error e =>
            left
            exact ⟨c, e, rfl, rfl, by simp [Backup, hfs, hm, hc]⟩
        | ok u =>
            right
            cases hu : env.uploadRes with
            | error e =>
                left
                exact ⟨c, e, rfl, rfl, rfl, by simp [Backup, hfs, hm, hc, hu]⟩
            | ok v =>
                right
                exact ⟨c, rfl, rfl, rfl, by simp [Backup, hfs, hm, hc, hu]⟩

theorem Backup_allFiles (env : RunEnv) (today : Date) (job : BackupJob) :
    (Backup env today job).allFiles =
      downloadAll env (prevDay today) job.indexName (periodsCount job.intervalHours) := by
  rcases Backup_cases env today job with ⟨hfs, hB⟩ | ⟨hfs, hrest⟩
  · rw [hB, hfs]
  · rcases hrest with ⟨e, _, hB⟩ | ⟨c, e, _, _, hB⟩ | ⟨c, e, _, _, _, hB⟩ | ⟨c, _, _, _, hB⟩ <;>
      rw [hB]

theorem Backup_targetDate (env : RunEnv) (today : Date) (job : BackupJob) :
    (Backup env today job).targetDate = prevDay today := by
  rcases Backup_cases env today job with ⟨hfs, hB⟩ | ⟨hfs, hrest⟩
  · rw [hB]
  · rcases hrest with ⟨e, _, hB⟩ | ⟨c, e, _, _, hB⟩ | ⟨c, e, _, _, _, hB⟩ | ⟨c, _, _, _, hB⟩ <;>
      rw [hB]

theorem filePath_window_eq_spec (d : Date) (idx : String) (seq : Nat) :
    filePath (ArtifactFile.window d idx seq) = specWindowPath d idx seq := by
  simp [filePath, specWindowPath, goFormatMMDDYY, String.append_assoc]

/-- Claim C5, counterexample.  In a run where one window artifact was
written and the merge step then fails, the run ends in error and deletes
nothing: the window artifact is not deleted, contradicting "all Window
Artifact files created by that run are deleted regardless of success or
failure downstream of merge". -/
theorem run_cleanup_counterexample :
    (Backup envMergeFail dayX jobDaily).allFiles =
        [ArtifactFile.window ⟨2026, 10, 10⟩ "logs" 1] ∧
    (Backup envMergeFail dayX jobDaily).result = some (RunError.mergeFailed 7) ∧
    (Backup envMergeFail dayX jobDaily).deleted = [] := by
  decide

/-- Claim C5, amended.  Temporary files are deleted only when the whole
run succeeds: on success the window artifacts and the merged file are
deleted; on merge, compress or upload failure nothing is deleted; an
empty run deletes nothing; and the compressed artifact is never deleted
by the run. -/
theorem run_cleanup_only_after_success (env : RunEnv) (today : Date) (job : BackupJob) :
    ((Backup env today job).result = none → (Backup env today job).allFiles ≠ [] →
      (Backup env today job).deleted =
        (Backup env today job).allFiles
          ++ [ArtifactFile.merged (prevDay today) job.indexName]) ∧
    ((Backup env today job).result ≠ none → (Backup env today job).deleted = []) ∧
    ((Backup env today job).allFiles = [] → (Backup env today job).deleted = []) ∧
    (∀ d idx, ArtifactFile.compressed d idx ∉ (Backup env today job).deleted) := by
  rcases Backup_cases env today job with ⟨hfs, hB⟩ | ⟨hfs, hrest⟩
  · rw [hB]
    refine ⟨fun _ hne => absurd rfl hne, fun _ => rfl, fun _ => rfl, fun d idx h => ?_⟩
    simp at h
  · rcases hrest with ⟨e, _, hB⟩ | ⟨c, e, _, _, hB⟩ | ⟨c, e, _, _, _, hB⟩ | ⟨c, _, _, _, hB⟩ <;>
      rw [hB]
    · exact ⟨fun h => by simp at h, fun _ => rfl, fun h => absurd h hfs,
        fun d idx h => by simp at h⟩
    · exact ⟨fun h => by simp at h, fun _ => rfl, fun h => absurd h hfs,
        fun d idx h => by simp at h⟩
    · exact ⟨fun h => by simp at h, fun _ => rfl, fun h => absurd h hfs,
        fun d idx h => by simp at h⟩
    · refine ⟨fun _ _ => rfl, fun h => absurd rfl h, fun h => absurd h hfs,
        fun d idx h => ?_⟩
      rcases List.mem_append.mp h with h1 | h2
      · obtain ⟨i, hi, hdp⟩ := mem_downloadAll.mp h1
        have hf := downloadPeriod_ok_some hdp
        simp [windowFile] at hf
      · simp at h2

/-- Witness for `run_cleanup_only_after_success`: in the merge-failure
run the result is an error and nothing was deleted. -/
theorem run_cleanup_only_after_success_witness :
    (Backup envMergeFail dayX jobDaily).result ≠ none ∧
    (Backup envMergeFail dayX jobDaily).deleted = [] :=
  ⟨by decide, (run_cleanup_only_after_success envMergeFail dayX jobDaily).2.1 (by decide)⟩

/-- Claim C6.  A count-probe or extraction failure for one window is
non-fatal: the failed window contributes no artifact, every successful
window still contributes its artifact, and when the downstream stages
succeed the run ends successfully no matter how many windows failed. -/
theorem window_failure_nonfatal (env : RunEnv) (today : Date) (job : BackupJob) (c : Nat)
    (hm : env.mergeRes = .ok c) (hc : env.compressRes = .ok ())
    (hu : env.uploadRes = .ok ()) :
    (Backup env today job).result = none ∧
    (∀ i e,
      downloadPeriod (env.win i) (windowFile (prevDay today) job.indexName i) = .error e →
      windowFile (prevDay today) job.indexName i ∉ (Backup env today job).allFiles) ∧
    (∀ j, j < periodsCount job.intervalHours →
      downloadPeriod (env.win j) (windowFile (prevDay today) job.indexName j) =
        .ok (some (windowFile (prevDay today) job.indexName j)) →
      windowFile (prevDay today) job.indexName j ∈ (Backup env today job).allFiles) := by
  refine ⟨?_, ?_, ?_⟩
  · rcases Backup_cases env today job with ⟨hfs, hB⟩ | ⟨hfs, hrest⟩
    · rw [hB]
    · rcases hrest with ⟨e, he, hB⟩ | ⟨c', e, _, he, hB⟩ | ⟨c', e, _, _, he, hB⟩ |
        ⟨c', _, _, _, hB⟩
      · rw [hm] at he; exact Except.noConfusion he
      · rw [hc] at he; exact Except.noConfusion he
      · rw [hu] at he; exact Except.noConfusion he
      · rw [hB]
  · intro i e hde hmem
    rw [Backup_allFiles] at hmem
    obtain ⟨k, hk, hdp⟩ := mem_downloadAll.mp hmem
    have hik : i = k := windowFile_inj (downloadPeriod_ok_some hdp)
    rw [← hik, hde] at hdp
    exact Except.noConfusion hdp
  · intro j hj hdp
    rw [Backup_allFiles]
    exact mem_downloadAll.mpr ⟨j, hj, hdp⟩

/-- Witness for `window_failure_nonfatal`: window 0's probe fails,
window 1 downloads fine, the run succeeds with only window 1's file. -/
theorem window_failure_nonfatal_witness :
    (Backup envOneBadWindow dayX jobHalfDay).result = none ∧
    windowFile (prevDay dayX) "logs" 0 ∉ (Backup envOneBadWindow dayX jobHalfDay).allFiles ∧
    windowFile (prevDay dayX) "logs" 1 ∈ (Backup envOneBadWindow dayX jobHalfDay).allFiles :=
  ⟨(window_failure_nonfatal envOneBadWindow dayX jobHalfDay 2 rfl rfl rfl).1,
   (window_failure_nonfatal envOneBadWindow dayX jobHalfDay 2 rfl rfl rfl).2.1 0 5 rfl,
   (window_failure_nonfatal envOneBadWindow dayX jobHalfDay 2 rfl rfl rfl).2.2 1 (by decide)
     rfl⟩

/-- Claim C7.  A probed count of zero yields no artifact and no error
for that window, and a run in which no window produced an artifact ends
early as a successful no-op: no merge, no compression, no upload, no
artifact, nothing deleted. -/
theorem zero_count_empty_run (env : RunEnv) (today : Date) (job : BackupJob)
    (h : ∀ i, i < periodsCount job.intervalHours → ∀ f,
      downloadPeriod (env.win i) (windowFile (prevDay today) job.indexName i) ≠
        .ok (some f)) :
    (∀ w : WindowEnv, ∀ file : ArtifactFile,
      w.countRes = .ok 0 → downloadPeriod w file = .ok none) ∧
    Backup env today job =
      ⟨prevDay today, [], false, none, false, none, false, none, [], none⟩ := by
  constructor
  · intro w file h0
    unfold downloadPeriod
    rw [h0]
    rfl
  · have hfs : downloadAll env (prevDay today) job.indexName
        (periodsCount job.intervalHours) = [] := by
      rw [List.eq_nil_iff_forall_not_mem]
      intro f hf
      obtain ⟨i, hi, hdp⟩ := mem_downloadAll.mp hf
      exact h i hi f hdp
    rcases Backup_cases env today job with ⟨_, hB⟩ | ⟨hne, _⟩
    · exact hB
    · exact absurd hfs hne

/-- Witness for `zero_count_empty_run`: every window probes zero
documents, the run is a successful no-op. -/
theorem zero_count_empty_run_witness :
    Backup envAllEmpty dayX jobDaily =
      ⟨prevDay dayX, [], false, none, false, none, false, none, [], none⟩ :=
  (zero_count_empty_run envAllEmpty dayX jobDaily
    (by intro i hi f hcontra; simp [downloadPeriod, envAllEmpty] at hcontra)).2

/-- Claim C10.  The target day of a run is the calendar day before the
current date, re-derived from the clock at each run, and every window
artifact is named from that date formatted MM-DD-YY, the index name, and
the 1-based window sequence number. -/
theorem backup_yesterday_naming (env : RunEnv) (today : Date) (job : BackupJob) :
    (Backup env today job).targetDate = prevDay today ∧
    (∀ f ∈ (Backup env today job).allFiles, ∃ i, i < periodsCount job.intervalHours ∧
      f = windowFile (prevDay today) job.indexName i ∧
      filePath f = specWindowPath (prevDay today) job.indexName (i + 1)) ∧
    (∀ d idx seq, filePath (ArtifactFile.window d idx seq) = specWindowPath d idx seq) := by
  refine ⟨Backup_targetDate env today job, ?_, filePath_window_eq_spec⟩
  intro f hf
  rw [Backup_allFiles] at hf
  obtain ⟨i, hi, hdp⟩ := mem_downloadAll.mp hf
  have hfw := downloadPeriod_ok_some hdp
  refine ⟨i, hi, hfw, ?_⟩
  rw [hfw]
  exact filePath_window_eq_spec (prevDay today) job.indexName (i + 1)

/-- Witness for `backup_yesterday_naming` at the first of January: the
target date is the previous calendar day in the previous year, and the
first window's artifact path is the MM-DD-YY-named file. -/
theorem backup_yesterday_naming_witness :
    (Backup envAllEmpty ⟨2026, 1, 1⟩ jobDaily).targetDate = prevDay ⟨2026, 1, 1⟩ ∧
    filePath (ArtifactFile.window ⟨2025, 12, 31⟩ "logs" 1) =
      specWindowPath ⟨2025, 12, 31⟩ "logs" 1 :=
  ⟨(backup_yesterday_naming envAllEmpty ⟨2026, 1, 1⟩ jobDaily).1,
   (backup_yesterday_naming envAllEmpty ⟨2026, 1, 1⟩ jobDaily).2.2 ⟨2025, 12, 31⟩ "logs" 1⟩

theorem mergeLoop_ok (decode : List Nat → Except Nat Nat) (cnt : List Nat → Nat) :
    ∀ (files : List (List Nat)) (merged : List Nat) (total : Nat),
      (∀ f ∈ files, decode f = .ok (cnt f)) →
      mergeLoop decode files merged total =
        .ok (merged ++ files.flatten, total + (files.map cnt).sum)
  | [], merged, total, _ => by simp [mergeLoop]
  | f :: rest, merged, total, h => by
      have hf : decode f = .ok (cnt f) := h f (List.mem_cons_self f rest)
      have hrest := mergeLoop_ok decode cnt rest (merged ++ f) (total + cnt f)
        (fun g hg => h g (List.mem_cons_of_mem f hg))
      simp [mergeLoop, hf, hrest, List.append_assoc, Nat.add_assoc]

/-- Claim C3.  When every surviving window artifact decodes, the merger
returns a day artifact whose bytes are exactly the concatenation of the
artifacts' bytes in input order — nothing reordered, dropped or
re-serialized — together with the sum of the per-artifact document
counts re-derived by decoding each artifact's own bytes. -/
theorem merge_bytes_and_count (decode : List Nat → Except Nat Nat)
    (cnt : List Nat → Nat) (files : List (List Nat))
    (h : ∀ f ∈ files, decode f = .ok (cnt f)) :
    mergeFiles decode files = .ok (files.flatten, (files.map cnt).sum) := by
  have hm := mergeLoop_ok decode cnt files [] 0 h
  simpa [mergeFiles] using hm

/-- Witness for `merge_bytes_and_count`: two artifacts of two and one
bytes merge to their concatenation with total count 3 when each file's
decoded count is its length. -/
theorem merge_bytes_and_count_witness :
    mergeFiles (fun f => .ok f.length) [[1, 2], [3]] = .ok ([1, 2, 3], 3) :=
  merge_bytes_and_count (fun f => .ok f.length) List.length [[1, 2], [3]]
    (fun _ _ => rfl)

theorem attemptNumbers_eq : attemptNumbers = [1, 2, 3] := rfl

theorem Upload_eq (put : Nat → Option Nat) (d : Nat) :
    Upload put d =
      match put 1 with
      | none => ⟨1, [], .ok ()⟩
      | some _ =>
        match put 2 with
        | none => ⟨2, [d * 1], .ok ()⟩
        | some _ =>
          match put 3 with
          | none => ⟨3, [d * 1, d * 2], .ok ()⟩
          | some e3 => ⟨3, [d * 1, d * 2], .error (maxRetries, e3)⟩ := by
  cases hp1 : put 1 with
  | none => simp [Upload, attemptNumbers_eq, uploadGo, hp1]
  | some e1 =>
    cases hp2 : put 2 with
    | none => simp [Upload, attemptNumbers_eq, uploadGo, hp1, hp2, maxRetries]
    | some e2 =>
      cases hp3 : put 3 with
      | none => simp [Upload, attemptNumbers_eq, uploadGo, hp1, hp2, hp3, maxRetries]
      | some e3 => simp [Upload, attemptNumbers_eq, uploadGo, hp1, hp2, hp3, maxRetries]

/-- Claim C4.  The uploader makes at most 3 attempts and returns success
as soon as one attempt succeeds; between attempts — never after the
last — it waits base_delay times the attempt number, so failing twice
then succeeding gives exactly 3 attempts with waits base_delay*1 and
base_delay*2; and when all 3 attempts fail the error carries the
attempt count together with the last underlying failure. -/
theorem upload_retry_policy (put : Nat → Option Nat) (d : Nat) :
    (Upload put d).attempts ≤ maxRetries ∧
    (put 1 = none → Upload put d = ⟨1, [], .ok ()⟩) ∧
    (∀ e1, put 1 = some e1 → put 2 = none → Upload put d = ⟨2, [d * 1], .ok ()⟩) ∧
    (∀ e1 e2, put 1 = some e1 → put 2 = some e2 → put 3 = none →
      Upload put d = ⟨3, [d * 1, d * 2], .ok ()⟩) ∧
    (∀ e1 e2 e3, put 1 = some e1 → put 2 = some e2 → put 3 = some e3 →
      Upload put d = ⟨3, [d * 1, d * 2], .error (maxRetries, e3)⟩) := by
  refine ⟨?_, ?_, ?_, ?_, ?_⟩
  · rw [Upload_eq]
    cases put 1
    · simp [maxRetries]
    · cases put 2
      · simp [maxRetries]
      · cases put 3 <;> simp [maxRetries]
  · intro h1
    rw [Upload_eq, h1]
  · intro e1 h1 h2
    rw [Upload_eq, h1, h2]
  · intro e1 e2 h1 h2 h3
    rw [Upload_eq, h1, h2, h3]
  · intro e1 e2 e3 h1 h2 h3
    rw [Upload_eq, h1, h2, h3]

/-- Witness for `upload_retry_policy`: a put that fails on attempts 1
and 2 and succeeds on attempt 3, with base delay 4, yields 3 attempts,
waits of 4 and 8, and success. -/
theorem upload_retry_policy_witness :
    Upload (fun a => if a ≤ 2 then some 9 else none) 4 = ⟨3, [4 * 1, 4 * 2], .ok ()⟩ :=
  (upload_retry_policy (fun a => if a ≤ 2 then some 9 else none) 4).2.2.2.1 9 9 rfl rfl rfl

/-- Claim C8.  A cleanup run issues exactly one delete-by-query request
against the job's index whose predicate is an inclusive upper bound on
`@timestamp` at the day-granularity date-math cutoff `now-Nd/d` (for
N = 30: `now-30d/d`, now minus 30 days at day granularity); there is no
pagination and no retry, a failing request becomes the run's error and
a successful one reports the deleted-count. -/
theorem cleanup_single_request (job : CleanupJob)
    (execute : DeleteByQueryReq → Except Nat Nat) :
    (Cleanup job execute).requests =
      [⟨[job.indexName], ⟨"@timestamp", "now-" ++ toString job.retentionDays ++ "d/d"⟩⟩] ∧
    (∀ e, execute ⟨[job.indexName], cleanupPredicate job.retentionDays⟩ = .error e →
      (Cleanup job execute).result = .error e) ∧
    (∀ n, execute ⟨[job.indexName], cleanupPredicate job.retentionDays⟩ = .ok n →
      (Cleanup job execute).result = .ok n) ∧
    cleanupExpr 30 = "now-30d/d" := by
  refine ⟨?_, ?_, ?_, rfl⟩
  · unfold Cleanup
    cases execute ⟨[job.indexName], cleanupPredicate job.retentionDays⟩ <;> rfl
  · intro e he
    unfold Cleanup
    rw [he]
  · intro n hn
    unfold Cleanup
    rw [hn]

/-- Witness for `cleanup_single_request`: a failing delete-by-query
surfaces its error as the run's result. -/
theorem cleanup_single_request_witness :
    (Cleanup ⟨"logs", 30⟩ (fun _ => .error 42)).result = .error 42 :=
  (cleanup_single_request ⟨"logs", 30⟩ (fun _ => .error 42)).2.1 42 rfl

/-- Claim C9, counterexample.  With two jobs registered for the same
index name "A", firing handler 0 starts a run of identity "A"; firing
handler 1 while that run still holds its lock is NOT skipped — the two
handlers captured different mutexes, because the registration loop
overwrote the map entry — and two executions of identity "A" are then
in flight at once. -/
theorem single_flight_identity_counterexample :
    (fireJob (initState [⟨"A", "h"⟩, ⟨"A", "h"⟩]) 0).2 = true ∧
    runningOf [⟨"A", "h"⟩, ⟨"A", "h"⟩]
      (fireJob (initState [⟨"A", "h"⟩, ⟨"A", "h"⟩]) 0).1 "A" = 1 ∧
    (fireJob (fireJob (initState [⟨"A", "h"⟩, ⟨"A", "h"⟩]) 0).1 1).2 = true ∧
    runningOf [⟨"A", "h"⟩, ⟨"A", "h"⟩]
      (fireJob (fireJob (initState [⟨"A", "h"⟩, ⟨"A", "h"⟩]) 0).1 1).1 "A" = 2 := by
  decide

theorem length_filter_le_one {p : Nat → Bool} : ∀ {l : List Nat}, l.Nodup →
    (∀ i ∈ l, ∀ j ∈ l, p i = true → p j = true → i = j) →
    (l.filter p).length ≤ 1
  | [], _, _ => by simp
  | a :: t, hnd, h => by
      rw [List.filter_cons]
      by_cases hpa : p a = true
      · rw [if_pos hpa]
        have ht : t.filter p = [] := by
          rw [List.filter_eq_nil_iff]
          intro b hb hpb
          have hba := h a (List.mem_cons_self a t) b (List.mem_cons_of_mem a hb) hpa hpb
          rw [List.nodup_cons] at hnd
          exact hnd.1 (by rw [hba]; exact hb)
        rw [ht]
        simp
      · rw [if_neg hpa]
        exact length_filter_le_one (List.nodup_cons.mp hnd).2
          (fun i hi j hj => h i (List.mem_cons_of_mem a hi) j (List.mem_cons_of_mem a hj))

/-- Claim C9, amended.  Mutual exclusion is per registered handler (per
captured lock): a firing while the handler's own lock is held is
skipped with the state unchanged and no run started, a firing of a free
handler starts exactly that run; and when every registered job has a
distinct index name — one job per identity — at most one execution per
job identity is in flight in any state. -/
theorem single_flight_per_handler (js : List SchedJob) (s : SchedState) (i : Nat)
    (hlen : i < s.held.length) :
    (s.held[i] = true → fireJob s i = (s, false)) ∧
    (s.held[i] = false →
      fireJob s i = (⟨s.held.set i true, s.startLog ++ [i]⟩, true)) ∧
    (js.Pairwise (fun a b => a.indexName ≠ b.indexName) →
      ∀ name, runningOf js s name ≤ 1) := by
  refine ⟨?_, ?_, ?_⟩
  · intro hheld
    simp [fireJob, hlen, hheld]
  · intro hfree
    simp [fireJob, hlen, hfree]
  · intro hpw name
    unfold runningOf
    apply length_filter_le_one (List.nodup_range _)
    intro a ha b hb hpa hpb
    have haL : a < js.length := List.mem_range.mp ha
    have hbL : b < js.length := List.mem_range.mp hb
    rw [Bool.and_eq_true] at hpa hpb
    have hna := hpa.1
    have hnb := hpb.1
    simp [List.getElem?_eq_getElem haL] at hna
    simp [List.getElem?_eq_getElem hbL] at hnb
    rw [List.pairwise_iff_getElem] at hpw
    rcases Nat.lt_trichotomy a b with hlt | heq | hgt
    · exact absurd (hna.trans hnb.symm) (hpw a b haL hbL hlt)
    · exact heq
    · exact absurd (hnb.trans hna.symm) (hpw b a hbL haL hgt)

/-- Witness for `single_flight_per_handler`: with distinct index names
"A" and "B" and handler 0 running, a firing of handler 0 is skipped
with no state change, and at most one execution of identity "A" is in
flight. -/
theorem single_flight_per_handler_witness :
    fireJob ⟨[true, false], [0]⟩ 0 = (⟨[true, false], [0]⟩, false) ∧
    runningOf [⟨"A", "h"⟩, ⟨"B", "h"⟩] ⟨[true, false], [0]⟩ "A" ≤ 1 :=
  ⟨(single_flight_per_handler [⟨"A", "h"⟩, ⟨"B", "h"⟩] ⟨[true, false], [0]⟩ 0
      (by decide)).1 rfl,
   (single_flight_per_handler [⟨"A", "h"⟩, ⟨"B", "h"⟩] ⟨[true, false], [0]⟩ 0
      (by decide)).2.2 (by decide) "A"⟩

end OSIM
